import Mathlib

/-!
Verification of the vehicle-damage-labeler labeling-session state machine
(`src/app.py`, active version at the bottom of the file).  The Python session
state, the Drive listing loop, the Supabase helpers and the tab-1 handlers are
shallowly embedded as pure Lean functions; theorems below settle the spec's
claims about them.
-/

namespace VDL

/-- A Drive file entry as returned by `drive.files().list`:
`files(id, name, mimeType)`. -/
structure Img where
  id : String
  name : String
  mimeType : String
deriving DecidableEq, Repr, Inhabited

/-- A row value of the `image_labels` table / an entry of
`st.session_state.labels`: `{"description": ..., "side": ...}`. -/
structure LabelRec where
  description : String
  side : String
deriving DecidableEq, Repr, Inhabited

/-- The two values of the `st.radio("🔍 Show Images", ...)` control:
`"All Images"` and `"Only Unlabeled"`. -/
inductive FilterMode where
  | all
  | unlabeledOnly
deriving DecidableEq, Repr, Inhabited

/-- The controller-relevant part of `st.session_state`:
`all_images`, `images`, `index`, `labels`, `last_filter_mode`.
`labels` is a Python dict keyed by image name, embedded as an association
list with insert-or-replace update. -/
structure SessionState where
  all_images : List Img
  images : List Img
  index : Nat
  labels : List (String × LabelRec)
  last_filter_mode : FilterMode
deriving DecidableEq, Repr, Inhabited

/-- Python dict assignment `d[k] = v`: replace the entry for `k` if present
(keys are unique in a dict), otherwise append. -/
def dictInsert (k : String) (v : LabelRec) : List (String × LabelRec) → List (String × LabelRec)
  | [] => [(k, v)]
  | (k₁, v₁) :: rest => if k₁ = k then (k, v) :: rest else (k₁, v₁) :: dictInsert k v rest

/-- Python `str.strip()` whitespace set (ASCII part): space, tab, newline,
vertical tab, form feed, carriage return. -/
def pyIsSpace (c : Char) : Bool :=
  c = ' ' || c = '\t' || c = '\n' || c = '\x0b' || c = '\x0c' || c = '\r'

/-- Python `s.strip()`. -/
def pyStrip (s : String) : String :=
  String.mk (((s.toList.dropWhile pyIsSpace).reverse.dropWhile pyIsSpace).reverse)

/-! ## Inventory Source adapter: `list_drive_images` -/

/-- One response of `drive.files().list(...)`:
`{"files": [...], "nextPageToken": ...}` (the token may be absent). -/
structure DrivePage where
  files : List Img
  nextPageToken : Option String
deriving DecidableEq, Repr, Inhabited

/-- The `while True` pagination loop of `list_drive_images`, over the sequence
of responses the upstream produces: each iteration keeps the files whose
`mimeType` starts with `"image/"`, then follows `nextPageToken`; an absent
token breaks the loop. -/
def drivePageLoop : List DrivePage → List Img
  | [] => []
  | p :: rest =>
    let imgs := p.files.filter (fun f => f.mimeType.startsWith "image/")
    match p.nextPageToken with
    | none => imgs
    | some _ => imgs ++ drivePageLoop rest

/-- `list_drive_images`: the pagination loop followed by
`images.sort(key=lambda x: x["name"])`. -/
def list_drive_images (pages : List DrivePage) : List Img :=
  (drivePageLoop pages).mergeSort (fun a b => a.name ≤ b.name)

/-- The pages the loop actually consumes: every page up to and including the
first one whose `nextPageToken` is absent. -/
def consumedPages : List DrivePage → List DrivePage
  | [] => []
  | p :: rest =>
    match p.nextPageToken with
    | none => [p]
    | some _ => p :: consumedPages rest

/-! ## Supabase helpers -/

/-- `get_labeled_image_names`: the names among the `(image_name, description)`
rows whose description is truthy and different from `"None"`. -/
def get_labeled_image_names (rows : List (String × String)) : List String :=
  (rows.filter (fun r => r.2 ≠ "" && r.2 ≠ "None")).map (fun r => r.1)

/-- `save_label(name, desc, side)`: upsert into Supabase, then (only if the
network call returned) mirror into `st.session_state.labels`.  `storeOk`
models whether `.execute()` succeeds; the returned list records the upsert
call issued, and the Bool whether control flow continues past it. -/
def save_label (storeOk : Bool) (name desc side : String) (s : SessionState) :
    SessionState × List (String × LabelRec) × Bool :=
  if storeOk then
    ({ s with labels := dictInsert name ⟨desc, side⟩ s.labels },
     [(name, ⟨desc, side⟩)], true)
  else
    (s, [(name, ⟨desc, side⟩)], false)

/-! ## Initial data loading (auto-resume) -/

/-- The `labeled_names` set built inside the initial-load block: names whose
cached record has `description != "None"`. -/
def resumeLabeled (labels : List (String × LabelRec)) : List String :=
  (labels.filter (fun p => p.2.description ≠ "None")).map (fun p => p.1)

/-- The `for i, img in enumerate(...)` loop with `break`: index of the first
image whose name is not in `labeled_names`, if any. -/
def firstUnlabeled (L : List String) : List Img → Option Nat
  | [] => none
  | img :: rest =>
    if L.contains img.name then (firstUnlabeled L rest).map (fun i => i + 1)
    else some 0

/-- The index after the auto-resume loop: the first unlabeled position, or the
prior value `0` (the `setdefault` value) when the loop finds none. -/
def autoResumeIndex (inv : List Img) (L : List String) : Nat :=
  (firstUnlabeled L inv).getD 0

/-- The initial-load block: `all_images` and `labels` are fetched, then the
auto-resume loop sets `index`.  `images` is not touched here (it keeps its
`setdefault` value `[]`), `last_filter_mode` keeps its default
`"All Images"`. -/
def initializeState (inv : List Img) (labels : List (String × LabelRec)) : SessionState :=
  { all_images := inv
    images := []
    index := autoResumeIndex inv (resumeLabeled labels)
    labels := labels
    last_filter_mode := FilterMode.all }

/-! ## Tab 1 handlers -/

/-- The `if filter_mode != st.session_state.last_filter_mode:` block of tab 1.
`L` is the fresh `get_labeled_image_names()` result. -/
def filterChange (L : List String) (m : FilterMode) (s : SessionState) : SessionState :=
  if m ≠ s.last_filter_mode then
    if m = FilterMode.unlabeledOnly then
      { s with images := s.all_images.filter (fun img => !(L.contains img.name))
               index := 0
               last_filter_mode := m }
    else
      { s with images := s.all_images, last_filter_mode := m }
  else s

/-- The whole filter section of tab 1: the mode-change block followed by the
unconditional `if filter_mode == "All Images": images = all_images`. -/
def filterStep (L : List String) (m : FilterMode) (s : SessionState) : SessionState :=
  if m = FilterMode.all then
    { filterChange L m s with images := (filterChange L m s).all_images }
  else filterChange L m s

/-- The bounds check `if st.session_state.index >= len(st.session_state.images):
st.session_state.index = 0`. -/
def boundsStep (s : SessionState) : SessionState :=
  if s.index ≥ s.images.length then { s with index := 0 } else s

/-- The whole tab-1 pass up to the display: filter section, then
`if not st.session_state.images: st.stop()` (modelled as `none`: navigation is
disabled), then the bounds check. -/
def tab1FilterPass (L : List String) (m : FilterMode) (s : SessionState) :
    Option SessionState :=
  if (filterStep L m s).images.isEmpty then none
  else some (boundsStep (filterStep L m s))

/-! ## Save form submit handler -/

/-- Outcome of pressing `💾 Save & Next`. -/
inductive SaveResult where
  | ok
  | validationError
  | storeError
deriving DecidableEq, Repr, Inhabited

/-- Result of the submit handler: the session state afterwards, the upsert
calls issued to the store, and how the handler ended. -/
structure SaveOutcome where
  state : SessionState
  storeWrites : List (String × LabelRec)
  result : SaveResult
deriving DecidableEq, Repr, Inhabited

/-- `st.session_state.current_name` as set by `load_current_image`:
the name of `images[index]`. -/
def currentName (s : SessionState) : String :=
  ((s.images[s.index]?).map Img.name).getD ""

/-- The form submit handler: `if not label.strip(): warning` else
`save_label(current_name, label.strip(), side)` then `index += 1` clamped to
`len(images) - 1`. -/
def submitSave (storeOk : Bool) (label side : String) (s : SessionState) : SaveOutcome :=
  if pyStrip label = "" then
    { state := s, storeWrites := [], result := SaveResult.validationError }
  else
    match save_label storeOk (currentName s) (pyStrip label) side s with
    | (s1, ws, true) =>
      let i1 := s1.index + 1
      let i2 := if i1 ≥ s1.images.length then s1.images.length - 1 else i1
      { state := { s1 with index := i2 }, storeWrites := ws, result := SaveResult.ok }
    | (s1, ws, false) =>
      { state := s1, storeWrites := ws, result := SaveResult.storeError }

/-! ## Operation sequences (for the filter-algebra claim) -/

/-- Any controller operation of the active script. -/
inductive SessionOp where
  | filterToggle (L : List String) (m : FilterMode)
  | boundsCheck
  | saveAdvance (storeOk : Bool) (label side : String)
deriving Repr, Inhabited

def applyOp (s : SessionState) : SessionOp → SessionState
  | SessionOp.filterToggle L m => filterStep L m s
  | SessionOp.boundsCheck => boundsStep s
  | SessionOp.saveAdvance ok lab sd => (submitSave ok lab sd s).state

def applyOps (s : SessionState) (ops : List SessionOp) : SessionState :=
  ops.foldl applyOp s

/-! ## Spec-side definitions used to compare code behaviour with claim wording -/

/-- Index of the first element satisfying `p`, if any. -/
def firstIdxWhere (p : Img → Bool) : List Img → Option Nat
  | [] => none
  | img :: rest =>
    if p img then some 0 else (firstIdxWhere p rest).map (fun i => i + 1)

/-- "Unlabeled" as judged against the annotation cache: the name is absent, or
the cached record carries the skip sentinel `"None"` as description. -/
def cacheUnlabeled (labels : List (String × LabelRec)) (img : Img) : Bool :=
  match labels.lookup img.name with
  | none => true
  | some v => v.description = "None"

/-- The unlabeled criterion exactly as claim C2 words it: name absent from the
annotation cache, or the record has a sentinel or an empty description. -/
def claimC2Unlabeled (labels : List (String × LabelRec)) (img : Img) : Bool :=
  match labels.lookup img.name with
  | none => true
  | some v => v.description = "None" || v.description = ""

/-- Modelled from the spec: the active script has no jump-to-unlabeled control
(`src/app.py` only describes navigation via the save form), so the operation
is taken from §4.1 of the spec: scan `workingSet` strictly after `cursor` for
the first item whose name is missing from `annotationCache` or has the skip
sentinel; if found, set the cursor there, else leave it unchanged and report
exhaustion (the returned Bool). -/
def jumpToNextUnlabeled (s : SessionState) : SessionState × Bool :=
  match firstIdxWhere (cacheUnlabeled s.labels) (s.images.drop (s.index + 1)) with
  | some k => ({ s with index := s.index + 1 + k }, false)
  | none => (s, true)

/-! ## Shared concrete data for witnesses -/

def imgA : Img := ⟨"idA", "a.jpg", "image/jpeg"⟩
def imgB : Img := ⟨"idB", "b.jpg", "image/png"⟩
def imgC : Img := ⟨"idC", "c.jpg", "image/png"⟩

def exState : SessionState :=
  { all_images := [imgA, imgB, imgC]
    images := [imgA, imgB, imgC]
    index := 0
    labels := []
    last_filter_mode := FilterMode.all }

/-! ## Unfolding lemmas for the submit handler -/

theorem submitSave_ok_eq (label side : String) (s : SessionState)
    (hl : pyStrip label ≠ "") :
    submitSave true label side s =
      { state :=
          { s with labels := dictInsert (currentName s) ⟨pyStrip label, side⟩ s.labels
                   index := if s.index + 1 ≥ s.images.length then s.images.length - 1
                            else s.index + 1 }
        storeWrites := [(currentName s, ⟨pyStrip label, side⟩)]
        result := SaveResult.ok } := by
  unfold submitSave save_label
  rw [if_neg hl]
  rfl

/-! ## Claim C3: blank description is rejected with no state change -/

/-- C3: submitting the save form with an empty or whitespace-only description
fails with the validation warning and performs no store write, no cache
update, and no cursor movement. -/
theorem submit_blank_is_validation_noop (storeOk : Bool) (label side : String)
    (s : SessionState) (h : pyStrip label = "") :
    submitSave storeOk label side s =
      { state := s, storeWrites := [], result := SaveResult.validationError } := by
  unfold submitSave
  simp [h]

theorem submit_blank_is_validation_noop_witness :
    submitSave true " \t " "front" exState =
      { state := exState, storeWrites := [], result := SaveResult.validationError } :=
  submit_blank_is_validation_noop true " \t " "front" exState (by decide)

/-! ## Claim C4: a valid save at the last item clamps, never wraps, never errors -/

/-- C4: a valid save at cursor `N - 1` of a non-empty working set leaves the
cursor at `N - 1`: the post-save advance is clamped to `len(images) - 1`, the
handler reports success, and the working set is untouched. -/
theorem submit_last_item_clamps (label side : String) (s : SessionState)
    (hne : s.images ≠ []) (hlast : s.index = s.images.length - 1)
    (hlab : pyStrip label ≠ "") :
    (submitSave true label side s).state.index = s.images.length - 1 ∧
    (submitSave true label side s).result = SaveResult.ok ∧
    (submitSave true label side s).state.images = s.images := by
  have hlen : 0 < s.images.length := List.length_pos.mpr hne
  unfold submitSave save_label
  simp only [if_neg hlab]
  have hadv : s.index + 1 ≥ s.images.length := by omega
  simp [hadv]

theorem submit_last_item_clamps_witness :
    (submitSave true "dent" "front" { exState with index := 2 }).state.index = 2 ∧
    (submitSave true "dent" "front" { exState with index := 2 }).result = SaveResult.ok :=
  have h := submit_last_item_clamps "dent" "front" { exState with index := 2 }
    (by decide) (by decide) (by decide)
  ⟨h.1, h.2.1⟩

/-! ## Claim C5: a failed store upsert rolls the whole save back -/

/-- C5: when the durable upsert fails on a non-blank save, the handler reports
the store error and the controller state is exactly the pre-call state: the
in-memory cache is not updated (it is only written after the upsert returns)
and the cursor does not advance. -/
theorem store_failure_rolls_back (label side : String) (s : SessionState)
    (hlab : pyStrip label ≠ "") :
    (submitSave false label side s).state = s ∧
    (submitSave false label side s).result = SaveResult.storeError := by
  unfold submitSave save_label
  simp [hlab]

theorem store_failure_rolls_back_witness :
    (submitSave false "dent" "front" exState).state = exState ∧
    (submitSave false "dent" "front" exState).result = SaveResult.storeError :=
  store_failure_rolls_back "dent" "front" exState (by decide)

/-! ## Claim C6: what a filter change does to the working set and the cursor -/

def sC6 : SessionState :=
  { all_images := [imgA, imgB]
    images := [imgB]
    index := 1
    labels := []
    last_filter_mode := FilterMode.unlabeledOnly }

/-- C6 counterexample: switching from `Only Unlabeled` back to `All Images`
with the cursor at 1 recomputes the working set from the full inventory but
leaves the cursor at 1 — it is not reset to 0 as the claim states, and the
bounds check afterwards keeps it at 1 too. -/
theorem setFilter_all_keeps_cursor_cex :
    (filterStep [] FilterMode.all sC6).images = [imgA, imgB] ∧
    (filterStep [] FilterMode.all sC6).index = 1 ∧
    (tab1FilterPass [] FilterMode.all sC6).map SessionState.index = some 1 := by
  decide

/-- C6 amended: on a filter-mode change the working set is recomputed from the
authoritative full inventory (never from the previous working set), but the
cursor is reset to 0 only when switching to `Only Unlabeled`; switching to
`All Images` leaves the cursor where it was. -/
theorem setFilter_recomputes_from_inventory (L : List String) (m : FilterMode)
    (s : SessionState) (hchg : m ≠ s.last_filter_mode) :
    (filterStep L m s).images =
      (if m = FilterMode.all then s.all_images
       else s.all_images.filter (fun img => !(L.contains img.name))) ∧
    (filterStep L m s).index =
      (if m = FilterMode.unlabeledOnly then 0 else s.index) := by
  cases m <;> simp [filterStep, filterChange, hchg]

theorem setFilter_recomputes_from_inventory_witness :
    (filterStep ["a.jpg"] FilterMode.unlabeledOnly exState).images = [imgB, imgC] ∧
    (filterStep ["a.jpg"] FilterMode.unlabeledOnly exState).index = 0 :=
  have h := setFilter_recomputes_from_inventory ["a.jpg"] FilterMode.unlabeledOnly
    exState (by decide)
  ⟨by rw [h.1]; decide, by rw [h.2]; decide⟩

/-! ## Claim C10: an out-of-range cursor is reset to 0, not clamped -/

/-- C10: after the filter section, if the working set is non-empty and the
previous cursor is at or beyond its length, the bounds check resets the cursor
to 0 — the first item, not the last one. -/
theorem bounds_check_resets_to_zero (L : List String) (m : FilterMode)
    (s : SessionState)
    (hne : (filterStep L m s).images ≠ [])
    (hout : (filterStep L m s).index ≥ (filterStep L m s).images.length) :
    (boundsStep (filterStep L m s)).index = 0 ∧
    ((filterStep L m s).images.length ≠ 1 →
      (boundsStep (filterStep L m s)).index ≠ (filterStep L m s).images.length - 1) := by
  have hlen : 0 < (filterStep L m s).images.length := List.length_pos.mpr hne
  refine ⟨?_, fun h1 => ?_⟩
  · unfold boundsStep
    rw [if_pos hout]
  · unfold boundsStep
    rw [if_pos hout]
    show (0 : Nat) ≠ (filterStep L m s).images.length - 1
    omega

def sC10 : SessionState :=
  { all_images := [imgA, imgB]
    images := [imgB]
    index := 5
    labels := []
    last_filter_mode := FilterMode.unlabeledOnly }

/-! ## Claim C1: the cursor stays in bounds -/

theorem boundsStep_index_lt (s : SessionState) (h : s.images ≠ []) :
    (boundsStep s).index < (boundsStep s).images.length := by
  have hlen : 0 < s.images.length := List.length_pos.mpr h
  unfold boundsStep
  by_cases hb : s.index ≥ s.images.length
  · rw [if_pos hb]; exact hlen
  · rw [if_neg hb]; omega

/-- C1: after every controller operation of the active script — the initial
load followed by the tab-1 pass, any tab-1 filter pass, and the save handler —
the cursor satisfies `index < len(images)` whenever the working set is
non-empty; when the filter section leaves the working set empty the pass stops
(`st.stop()`), performing no navigation. -/
theorem cursor_in_bounds_after_ops :
    (∀ (inv : List Img) (labels : List (String × LabelRec)) (L : List String)
        (m : FilterMode) (s₂ : SessionState),
        tab1FilterPass L m (initializeState inv labels) = some s₂ →
        s₂.index < s₂.images.length) ∧
    (∀ (L : List String) (m : FilterMode) (s s₂ : SessionState),
        tab1FilterPass L m s = some s₂ → s₂.index < s₂.images.length) ∧
    (∀ (ok : Bool) (label side : String) (s : SessionState),
        s.index < s.images.length →
        (submitSave ok label side s).state.index <
          (submitSave ok label side s).state.images.length) ∧
    (∀ (L : List String) (m : FilterMode) (s : SessionState),
        (filterStep L m s).images = [] → tab1FilterPass L m s = none) := by
  have hpass : ∀ (L : List String) (m : FilterMode) (s s₂ : SessionState),
      tab1FilterPass L m s = some s₂ → s₂.index < s₂.images.length := by
    intro L m s s₂ h
    unfold tab1FilterPass at h
    by_cases he : (filterStep L m s).images.isEmpty
    · rw [if_pos he] at h; cases h
    · rw [if_neg he] at h
      injection h with h
      subst h
      exact boundsStep_index_lt _ (by simpa using he)
  have hsave : ∀ (ok : Bool) (label side : String) (s : SessionState),
      s.index < s.images.length →
      (submitSave ok label side s).state.index <
        (submitSave ok label side s).state.images.length := by
    intro ok label side s h
    by_cases hl : pyStrip label = ""
    · unfold submitSave
      simpa [hl] using h
    · cases ok
      · unfold submitSave save_label
        simpa [hl] using h
      · rw [submitSave_ok_eq label side s hl]
        show (if s.index + 1 ≥ s.images.length then s.images.length - 1 else s.index + 1) <
          s.images.length
        split <;> omega
  refine ⟨fun inv labels L m s₂ h => hpass L m _ s₂ h, hpass, hsave, ?_⟩
  intro L m s h
  unfold tab1FilterPass
  rw [if_pos (by simp [h])]

theorem cursor_in_bounds_after_ops_witness :
    (submitSave true "dent" "front" exState).state.index <
      (submitSave true "dent" "front" exState).state.images.length :=
  cursor_in_bounds_after_ops.2.2.1 true "dent" "front" exState (by decide)

/-! ## Claim C7: switching back to All Images restores the full inventory -/

theorem filterChange_preserves_inventory (L : List String) (m : FilterMode)
    (s : SessionState) : (filterChange L m s).all_images = s.all_images := by
  unfold filterChange
  split
  · split <;> rfl
  · rfl

theorem filterStep_preserves_inventory (L : List String) (m : FilterMode)
    (s : SessionState) : (filterStep L m s).all_images = s.all_images := by
  unfold filterStep
  split <;> simp [filterChange_preserves_inventory]

theorem boundsStep_preserves_inventory (s : SessionState) :
    (boundsStep s).all_images = s.all_images := by
  unfold boundsStep; split <;> rfl

theorem submitSave_preserves_inventory (ok : Bool) (label side : String)
    (s : SessionState) : (submitSave ok label side s).state.all_images = s.all_images := by
  unfold submitSave save_label
  by_cases hl : pyStrip label = ""
  · simp [hl]
  · cases ok <;> simp [hl]

theorem applyOp_preserves_inventory (s : SessionState) (op : SessionOp) :
    (applyOp s op).all_images = s.all_images := by
  cases op with
  | filterToggle L m => exact filterStep_preserves_inventory L m s
  | boundsCheck => exact boundsStep_preserves_inventory s
  | saveAdvance ok lab sd => exact submitSave_preserves_inventory ok lab sd s

theorem applyOps_preserves_inventory (ops : List SessionOp) (s : SessionState) :
    (applyOps s ops).all_images = s.all_images := by
  induction ops generalizing s with
  | nil => rfl
  | cons op rest ih =>
    show (applyOps (applyOp s op) rest).all_images = s.all_images
    rw [ih, applyOp_preserves_inventory]

theorem filterStep_all_sets_images (L : List String) (s : SessionState) :
    (filterStep L FilterMode.all s).images = s.all_images := by
  unfold filterStep
  rw [if_pos rfl]
  exact filterChange_preserves_inventory L FilterMode.all s

theorem filterChange_all_last (L : List String) (s : SessionState) :
    (filterChange L FilterMode.all s).last_filter_mode = FilterMode.all := by
  unfold filterChange
  by_cases h : FilterMode.all ≠ s.last_filter_mode
  · rw [if_pos h]
    rfl
  · rw [if_neg h]
    exact (not_not.mp h).symm

theorem filterStep_all_last (L : List String) (s : SessionState) :
    (filterStep L FilterMode.all s).last_filter_mode = FilterMode.all := by
  unfold filterStep
  rw [if_pos rfl]
  exact filterChange_all_last L s

theorem filterStep_all_of_stable (L : List String) (t : SessionState)
    (hlast : t.last_filter_mode = FilterMode.all) (himg : t.images = t.all_images) :
    filterStep L FilterMode.all t = t := by
  unfold filterStep filterChange
  rw [if_pos rfl, hlast]
  simp only [ne_eq, not_true_eq_false, if_false]
  cases t
  simp_all

/-- C7: after any finite sequence of controller operations, running the filter
section with `All Images` selected yields a working set equal to the original
full inventory in its original order, and running it again (with any fresh
labeled-names snapshot) changes nothing — the operation is idempotent and
switching back from `Only Unlabeled` restores the complete ordering. -/
theorem setFilter_all_restores_inventory (ops : List SessionOp) (s : SessionState)
    (L L₂ : List String) :
    (filterStep L FilterMode.all (applyOps s ops)).images = s.all_images ∧
    filterStep L₂ FilterMode.all (filterStep L FilterMode.all (applyOps s ops)) =
      filterStep L FilterMode.all (applyOps s ops) := by
  constructor
  · rw [filterStep_all_sets_images, applyOps_preserves_inventory]
  · refine filterStep_all_of_stable L₂ _ (filterStep_all_last L _) ?_
    rw [filterStep_all_sets_images, filterStep_preserves_inventory]

/-! ## Claim C8: the listing loop filters to images and follows the token chain -/

/-- C8: an item is returned by `list_drive_images` exactly when it occurs on
one of the pages the loop consumes — every page up to and including the first
one without a continuation token, an absent token ending the loop normally —
and its content type indicates an image. -/
theorem listAll_images_iff_on_consumed_pages (pages : List DrivePage) (x : Img) :
    x ∈ list_drive_images pages ↔
      (x ∈ ((consumedPages pages).map DrivePage.files).flatten ∧
       x.mimeType.startsWith "image/" = true) := by
  unfold list_drive_images
  rw [List.mem_mergeSort]
  induction pages with
  | nil => simp [drivePageLoop, consumedPages]
  | cons p rest ih =>
    unfold drivePageLoop consumedPages
    cases h : p.nextPageToken with
    | none => simp [List.mem_filter]
    | some t =>
      simp only [List.map_cons, List.flatten_cons, List.mem_append, List.mem_filter, ih,
        or_and_right]

theorem bounds_check_resets_to_zero_witness :
    (boundsStep (filterStep [] FilterMode.all sC10)).index = 0 ∧
    (boundsStep (filterStep [] FilterMode.all sC10)).index ≠
      (filterStep [] FilterMode.all sC10).images.length - 1 :=
  have h := bounds_check_resets_to_zero [] FilterMode.all sC10 (by decide) (by decide)
  ⟨h.1, h.2 (by decide)⟩

/-! ## Characterization of the first-unlabeled scans -/

theorem mem_resumeLabeled (labels : List (String × LabelRec)) (x : String)
    (h : x ∈ resumeLabeled labels) : x ∈ labels.map Prod.fst := by
  unfold resumeLabeled at h
  rw [List.mem_map] at h
  obtain ⟨p, hp, hx⟩ := h
  rw [List.mem_filter] at hp
  exact List.mem_map.mpr ⟨p, hp.1, hx⟩

/-- With unique cache keys (Python dicts), membership in the auto-resume
`labeled_names` set is the negation of "absent or sentinel description". -/
theorem cacheUnlabeled_eq_not_contains (labels : List (String × LabelRec))
    (hnd : (labels.map Prod.fst).Nodup) (img : Img) :
    cacheUnlabeled labels img = !((resumeLabeled labels).contains img.name) := by
  induction labels with
  | nil => rfl
  | cons p rest ih =>
    obtain ⟨k, v⟩ := p
    rw [List.map_cons, List.nodup_cons] at hnd
    obtain ⟨hk, hnd2⟩ := hnd
    by_cases hkey : img.name = k
    · subst hkey
      have hnotin : img.name ∉ resumeLabeled rest :=
        fun hmem => hk (mem_resumeLabeled rest _ hmem)
      have hlook : (((img.name, v) :: rest).lookup img.name) = some v := by
        simp [List.lookup]
      by_cases hdesc : v.description = "None"
      · have hres : resumeLabeled ((img.name, v) :: rest) = resumeLabeled rest := by
          unfold resumeLabeled
          simp [List.filter_cons, hdesc]
        have hcont : (resumeLabeled rest).contains img.name = false := by
          simp [List.contains, hnotin]
        unfold cacheUnlabeled
        rw [hlook, hres, hcont]
        simp [hdesc]
      · have hres : resumeLabeled ((img.name, v) :: rest) =
            img.name :: resumeLabeled rest := by
          unfold resumeLabeled
          simp [List.filter_cons, hdesc]
        unfold cacheUnlabeled
        rw [hlook, hres]
        simp [hdesc, List.contains]
    · have hlook : (((k, v) :: rest).lookup img.name) = rest.lookup img.name := by
        simp only [List.lookup]
        rw [show (img.name == k) = false from by simp [hkey]]
      have ih2 := ih hnd2
      unfold cacheUnlabeled at ih2 ⊢
      rw [hlook, ih2]
      by_cases hdesc : v.description = "None"
      · have hres : resumeLabeled ((k, v) :: rest) = resumeLabeled rest := by
          unfold resumeLabeled
          simp [List.filter_cons, hdesc]
        rw [hres]
      · have hres : resumeLabeled ((k, v) :: rest) = k :: resumeLabeled rest := by
          unfold resumeLabeled
          simp [List.filter_cons, hdesc]
        rw [hres]
        simp [List.contains, hkey]

theorem firstUnlabeled_eq_firstIdxWhere (L : List String) (l : List Img) :
    firstUnlabeled L l = firstIdxWhere (fun img => !(L.contains img.name)) l := by
  induction l with
  | nil => rfl
  | cons img rest ih =>
    unfold firstUnlabeled firstIdxWhere
    by_cases h : L.contains img.name <;> simp [h, ih]

theorem firstIdxWhere_congr {p q : Img → Bool} (h : ∀ img, p img = q img)
    (l : List Img) : firstIdxWhere p l = firstIdxWhere q l := by
  induction l with
  | nil => rfl
  | cons img rest ih =>
    unfold firstIdxWhere
    rw [h img, ih]

theorem firstIdxWhere_eq_none (p : Img → Bool) (l : List Img) :
    firstIdxWhere p l = none ↔ ∀ img ∈ l, p img = false := by
  induction l with
  | nil => simp [firstIdxWhere]
  | cons img rest ih =>
    unfold firstIdxWhere
    by_cases h : p img
    · simp [h]
    · simp [h, ih]

theorem firstIdxWhere_some (p : Img → Bool) (l : List Img) (k : Nat)
    (h : firstIdxWhere p l = some k) :
    (l[k]?).any p = true ∧ ∀ j, j < k → (l[j]?).any p = false := by
  induction l generalizing k with
  | nil => cases h
  | cons img rest ih =>
    unfold firstIdxWhere at h
    by_cases hp : p img
    · rw [if_pos hp] at h
      injection h with h
      subst h
      exact ⟨by simp [hp], fun j hj => by omega⟩
    · rw [if_neg hp] at h
      cases hr : firstIdxWhere p rest with
      | none => rw [hr] at h; cases h
      | some k₂ =>
        rw [hr] at h
        simp only [Option.map_some'] at h
        injection h with h
        subst h
        obtain ⟨h1, h2⟩ := ih k₂ hr
        refine ⟨by simpa using h1, fun j hj => ?_⟩
        cases j with
        | zero => simp [hp]
        | succ j₂ => simpa using h2 j₂ (by omega)

theorem firstIdxWhere_isSome (p : Img → Bool) (l : List Img)
    (h : ∃ img ∈ l, p img = true) : ∃ k, firstIdxWhere p l = some k := by
  cases hf : firstIdxWhere p l with
  | some k => exact ⟨k, rfl⟩
  | none =>
    obtain ⟨img, hmem, hp⟩ := h
    have := (firstIdxWhere_eq_none p l).mp hf img hmem
    rw [this] at hp
    cases hp

/-! ## Claim C2: where the auto-resume cursor lands -/

def labsC2 : List (String × LabelRec) := [("a.jpg", ⟨"", "front"⟩)]

/-- C2 counterexample: with inventory `[a, b]` and the cache holding an
*empty* description for `a`, the claim's criterion marks `a` (index 0)
unlabeled, but the initial load sets the cursor to 1: the auto-resume treats
an empty description as labeled (only the literal `"None"` sentinel counts as
unlabeled there). -/
theorem init_cursor_empty_desc_cex :
    (initializeState [imgA, imgB] labsC2).index = 1 ∧
    claimC2Unlabeled labsC2 imgA = true ∧
    (firstIdxWhere (claimC2Unlabeled labsC2) [imgA, imgB]).getD 0 = 0 := by
  decide

/-- C2 amended: with unique cache keys, `initialize` sets the cursor to the
index of the first inventory item whose name is absent from the annotation
cache or whose record carries the sentinel description `"None"` (an empty
description counts as annotated), defaulting to 0 when every item is
annotated or the inventory is empty. -/
theorem init_cursor_first_unlabeled (inv : List Img)
    (labels : List (String × LabelRec)) (hnd : (labels.map Prod.fst).Nodup) :
    ((∀ img ∈ inv, cacheUnlabeled labels img = false) →
        (initializeState inv labels).index = 0) ∧
    ((∃ img ∈ inv, cacheUnlabeled labels img = true) →
        ((inv[(initializeState inv labels).index]?).any (cacheUnlabeled labels) = true ∧
         ∀ j, j < (initializeState inv labels).index →
           (inv[j]?).any (cacheUnlabeled labels) = false)) := by
  have hidx : (initializeState inv labels).index =
      (firstIdxWhere (cacheUnlabeled labels) inv).getD 0 := by
    show autoResumeIndex inv (resumeLabeled labels) = _
    unfold autoResumeIndex
    rw [firstUnlabeled_eq_firstIdxWhere,
      firstIdxWhere_congr
        (fun img => (cacheUnlabeled_eq_not_contains labels hnd img).symm) inv]
  constructor
  · intro hall
    rw [hidx, (firstIdxWhere_eq_none _ _).mpr hall]
    rfl
  · intro hex
    obtain ⟨k, hk⟩ := firstIdxWhere_isSome _ _ hex
    rw [hidx, hk]
    simpa using firstIdxWhere_some _ _ k hk

def labsW : List (String × LabelRec) := [("a.jpg", ⟨"dent", "front"⟩)]

theorem init_cursor_first_unlabeled_witness :
    ([imgA, imgB, imgC][(initializeState [imgA, imgB, imgC] labsW).index]?).any
      (cacheUnlabeled labsW) = true :=
  ((init_cursor_first_unlabeled [imgA, imgB, imgC] labsW (by decide)).2
    ⟨imgB, by decide, by decide⟩).1

/-! ## Claim C9: jump-to-next-unlabeled -/

/-- C9 (modelled from the spec: the operation does not exist in the active
script): `jumpToNextUnlabeled` scans the working set strictly after the
cursor; if some later item is unlabeled it moves the cursor to the first such
index, touching nothing else; otherwise it leaves the whole state unchanged
and reports exhaustion. -/
theorem jump_scans_after_cursor (s : SessionState) :
    ((∃ i, s.index < i ∧ (s.images[i]?).any (cacheUnlabeled s.labels) = true) →
        ((jumpToNextUnlabeled s).2 = false ∧
         s.index < (jumpToNextUnlabeled s).1.index ∧
         (s.images[(jumpToNextUnlabeled s).1.index]?).any (cacheUnlabeled s.labels) = true ∧
         (∀ j, s.index < j → j < (jumpToNextUnlabeled s).1.index →
            (s.images[j]?).any (cacheUnlabeled s.labels) = false) ∧
         (jumpToNextUnlabeled s).1.images = s.images ∧
         (jumpToNextUnlabeled s).1.labels = s.labels)) ∧
    ((∀ i, s.index < i → (s.images[i]?).any (cacheUnlabeled s.labels) = false) →
        jumpToNextUnlabeled s = (s, true)) := by
  constructor
  · rintro ⟨i, hi, hany⟩
    obtain ⟨img, himg, hp⟩ :
        ∃ img, s.images[i]? = some img ∧ cacheUnlabeled s.labels img = true := by
      cases hgi : s.images[i]? with
      | none => rw [hgi] at hany; cases hany
      | some img =>
        rw [hgi] at hany
        exact ⟨img, rfl, by simpa using hany⟩
    have hex : ∃ img ∈ s.images.drop (s.index + 1), cacheUnlabeled s.labels img = true := by
      refine ⟨img, ?_, hp⟩
      rw [List.mem_iff_getElem?]
      refine ⟨i - (s.index + 1), ?_⟩
      rw [List.getElem?_drop, show s.index + 1 + (i - (s.index + 1)) = i by omega]
      exact himg
    obtain ⟨k, hk⟩ := firstIdxWhere_isSome _ _ hex
    obtain ⟨h1, h2⟩ := firstIdxWhere_some _ _ k hk
    rw [List.getElem?_drop] at h1
    unfold jumpToNextUnlabeled
    rw [hk]
    refine ⟨rfl, ?_, ?_, ?_, rfl, rfl⟩
    · show s.index < s.index + 1 + k
      omega
    · show (s.images[s.index + 1 + k]?).any (cacheUnlabeled s.labels) = true
      exact h1
    · intro j hj1 hj2
      have hj2 : j < s.index + 1 + k := hj2
      have hlt : j - (s.index + 1) < k := by omega
      have := h2 (j - (s.index + 1)) hlt
      rw [List.getElem?_drop,
        show s.index + 1 + (j - (s.index + 1)) = j by omega] at this
      exact this
  · intro hall
    have hnone :
        firstIdxWhere (cacheUnlabeled s.labels) (s.images.drop (s.index + 1)) = none := by
      rw [firstIdxWhere_eq_none]
      intro img hmem
      rw [List.mem_iff_getElem?] at hmem
      obtain ⟨n, hn⟩ := hmem
      rw [List.getElem?_drop] at hn
      have := hall (s.index + 1 + n) (by omega)
      rw [hn] at this
      simpa using this
    unfold jumpToNextUnlabeled
    rw [hnone]

def sJ : SessionState :=
  { all_images := [imgA, imgB, imgC]
    images := [imgA, imgB, imgC]
    index := 0
    labels := labsW
    last_filter_mode := FilterMode.all }

theorem jump_scans_after_cursor_witness :
    (jumpToNextUnlabeled sJ).2 = false ∧ sJ.index < (jumpToNextUnlabeled sJ).1.index :=
  have h := (jump_scans_after_cursor sJ).1 ⟨1, by decide, by decide⟩
  ⟨h.1, h.2.1⟩

end VDL
